import Mathlib

/-
Verification of the chart-resolution pipeline of the AI data-agent front end.

The source under scrutiny is the client-side controller: `aggregateDataForChart`
together with the two `renderChart` variants and the chart-instance lifecycle in
`updateResults`.  JavaScript plain objects are modelled as association lists in
insertion order; `Object.keys`/`Object.values` apply the ECMAScript ordinary
[[OwnPropertyKeys]] ordering (canonical array-index keys first, ascending, then
the remaining string keys in insertion order).  Machine floats only ever carry
exact small decimal values in this pipeline, so numbers are modelled as `Rat`.
-/

namespace ChartEngine

/-- Scalar cell value of a row: string, number or null (a column that is absent
from a row reads as `undefined`, modelled by `Option.none` at lookup). -/
inductive Value where
  | vStr : String → Value
  | vNum : Rat → Value
  | vNull : Value
deriving DecidableEq

/-- A row is a JS object: an insertion-ordered association list from column
name to scalar value. -/
abbrev Row := List (String × Value)

/-- JS property read `o[k]`: the value stored under the first (unique) matching
key, or `none` for `undefined`. -/
def assocGet {α β : Type} [DecidableEq α] : List (α × β) → α → Option β
  | [], _ => none
  | (k', v) :: rest, k => if k' = k then some v else assocGet rest k

/-- JS property write `o[k] = v`: updates the entry in place when the key is
present (property order is unchanged), otherwise appends a new entry (new
properties come last in insertion order). -/
def assocSet {α β : Type} [DecidableEq α] : List (α × β) → α → β → List (α × β)
  | [], k, v => [(k, v)]
  | (k', v') :: rest, k, v =>
      if k' = k then (k', v) :: rest else (k', v') :: assocSet rest k v

/-- JS `String(number)` restricted to the values this pipeline produces:
integral rationals print as their integer digits (the JS output for every
integer below 10^21, the only numeric labels the engine meets); other
rationals are given the deterministic `Rat` representation. -/
def jsStringOfRat (q : Rat) : String :=
  if q.den = 1 then toString q.num else toString q

/-- JS `String(x)` / ToPropertyKey on a possibly-undefined cell value:
`undefined` and `null` stringify to their names. -/
def jsStr : Option Value → String
  | none => "undefined"
  | some Value.vNull => "null"
  | some (Value.vStr s) => s
  | some (Value.vNum q) => jsStringOfRat q

/-- Longest leading run of decimal digits of a character list, with the rest. -/
def takeDigits : List Char → List Char × List Char
  | [] => ([], [])
  | c :: rest =>
      if c.isDigit then
        let p := takeDigits rest
        (c :: p.1, p.2)
      else ([], c :: rest)

/-- Decimal value of a digit list. -/
def digitsToNat (ds : List Char) : Nat :=
  ds.foldl (fun acc c => acc * 10 + (c.toNat - 48)) 0

/-- Model of JS `parseFloat`: skip leading whitespace, optional sign, longest
prefix `digits [. digits]`; `none` models the NaN result when no digit is
found.  (Exponent suffixes and the Infinity literal, which the engine never
receives, are not modelled.) -/
def parseFloatQ (s : String) : Option Rat :=
  let cs := s.data.dropWhile (fun c => c == ' ' || c == '\t' || c == '\n' || c == '\r')
  let signed : Int × List Char :=
    match cs with
    | '-' :: rest => (-1, rest)
    | '+' :: rest => (1, rest)
    | _ => (1, cs)
  let ip := takeDigits signed.2
  let fp : List Char :=
    match ip.2 with
    | '.' :: rest => (takeDigits rest).1
    | _ => []
  if ip.1.isEmpty && fp.isEmpty then none
  else
    some (signed.1 * ((digitsToNat ip.1 : Rat) +
      (digitsToNat fp : Rat) / ((10 : Rat) ^ fp.length)))

/-- `parseFloat(row[dataKey]) || 0` : numeric coercion of a raw cell, where an
undefined cell, a null cell or an unparseable string (NaN) coerces to 0. -/
def jsParseFloatOr0 : Option Value → Rat
  | none => 0
  | some Value.vNull => 0
  | some (Value.vNum q) => q
  | some (Value.vStr s) => (parseFloatQ s).getD 0

/-- JS `toLowerCase`, character by character (the keys compared by the engine
are ASCII). -/
def jsToLowerCase (s : String) : String := String.mk (s.data.map Char.toLower)

/-- Is the string the canonical decimal form of a natural number (no sign, no
leading zero except "0" itself)? -/
def isCanonicalNumericString (s : String) : Bool :=
  match s.data with
  | [] => false
  | [c] => c.isDigit
  | c :: rest => c.isDigit && c != '0' && rest.all (fun d => d.isDigit)

/-- Numeric value of a canonical digit string. -/
def numericValue (s : String) : Nat := digitsToNat s.data

/-- ECMAScript array index: canonical numeric string whose value is below
2^32 - 1.  Such property keys are enumerated first, in ascending order. -/
def isArrayIndex (s : String) : Bool :=
  isCanonicalNumericString s && numericValue s < 4294967295

/-- The aggregation objects built by `aggregateDataForChart`: plain JS objects
with string keys and numeric values, in insertion order. -/
abbrev JsObj := List (String × Rat)

/-- `Object.keys`/`Object.values` enumeration order of a plain object:
array-index keys first in ascending numeric order, then the remaining keys in
insertion order. -/
def orderObj (o : JsObj) : JsObj :=
  List.insertionSort (fun a b : String × Rat => numericValue a.1 ≤ numericValue b.1)
      (o.filter (fun p => isArrayIndex p.1)) ++
    o.filter (fun p => !isArrayIndex p.1)

/-- The grouping key of a row: `String(row[labelKey])` (also the implicit
ToPropertyKey conversion applied by `counts[row[labelKey]]`). -/
def rowLabel (labelKey : String) (row : Row) : String := jsStr (assocGet row labelKey)

/-- The numeric contribution of a row: `parseFloat(row[dataKey]) || 0`. -/
def rowValue (dataKey : String) (row : Row) : Rat := jsParseFloatOr0 (assocGet row dataKey)

/-- Body of the counting-mode `forEach` of `aggregateDataForChart`:
`counts[label] = (counts[label] || 0) + 1`. -/
def countStep (labelKey : String) (counts : JsObj) (row : Row) : JsObj :=
  let label := rowLabel labelKey row
  assocSet counts label ((assocGet counts label).getD 0 + 1)

/-- Body of the "already aggregated" `forEach` (rows below the size threshold,
all carrying the value column): `aggregated[label] = (aggregated[label] || 0) + value`. -/
def sumStep (labelKey dataKey : String) (acc : JsObj) (row : Row) : JsObj :=
  let label := rowLabel labelKey row
  let value := rowValue dataKey row
  assocSet acc label ((assocGet acc label).getD 0 + value)

/-- Body of the large-dataset `forEach`:
`if (!grouped[label]) grouped[label] = 0; grouped[label] += value`
(the truthiness test is false exactly when the stored value is 0 or absent). -/
def groupStep (labelKey dataKey : String) (g : JsObj) (row : Row) : JsObj :=
  let label := rowLabel labelKey row
  let value := rowValue dataKey row
  let g1 := if (assocGet g label).getD 0 = 0 then assocSet g label 0 else g
  assocSet g1 label ((assocGet g1 label).getD 0 + value)

/-- The labels/values pair returned by `aggregateDataForChart`. -/
structure AggResult where
  labels : List String
  values : List Rat
deriving DecidableEq

/-- Counting mode of `aggregateDataForChart` (value key is the sentinel
"count"): count occurrences per label, then `Object.keys`/`Object.values`. -/
def aggregateCount (data : List Row) (labelKey : String) : AggResult :=
  let counts := data.foldl (countStep labelKey) []
  { labels := (orderObj counts).map Prod.fst, values := (orderObj counts).map Prod.snd }

/-- "Already aggregated" branch of `aggregateDataForChart` (fewer than 50 rows,
every row defines the value column): group and sum per stringified label. -/
def aggregateSmall (data : List Row) (labelKey dataKey : String) : AggResult :=
  let aggregated := data.foldl (sumStep labelKey dataKey) []
  { labels := (orderObj aggregated).map Prod.fst,
    values := (orderObj aggregated).map Prod.snd }

/-- Large-dataset branch of `aggregateDataForChart`: group and sum. -/
def aggregateGrouped (data : List Row) (labelKey dataKey : String) : AggResult :=
  let grouped := data.foldl (groupStep labelKey dataKey) []
  { labels := (orderObj grouped).map Prod.fst, values := (orderObj grouped).map Prod.snd }

/-- `aggregateDataForChart(data, labelKey, dataKey)` of
src/unnamed/part_000 lines 164-209. -/
def aggregateDataForChart (data : List Row) (labelKey dataKey : String) : AggResult :=
  if jsToLowerCase dataKey = "count" then aggregateCount data labelKey
  else if data.length < 50 ∧ ∀ row ∈ data, (assocGet row dataKey).isSome then
    aggregateSmall data labelKey dataKey
  else aggregateGrouped data labelKey dataKey

/-- A blueprint column reference as the backend supplies it: either a bare
string or a sequence of strings (the observed case being a one-element
sequence). -/
inductive KeySpec where
  | kStr : String → KeySpec
  | kArr : List String → KeySpec
deriving DecidableEq

/-- JS `spec[0]`: element 0 of an array, but the FIRST CHARACTER (as a
one-character string) of a bare string; `none` models `undefined`. -/
def specIndex0 : KeySpec → Option String
  | KeySpec.kStr s => s.data.head?.map (fun c => String.singleton c)
  | KeySpec.kArr l => l.head?

/-- JS `Array.prototype.toString`: elements joined with commas. -/
def joinComma : List String → String
  | [] => ""
  | [s] => s
  | s :: rest => s ++ "," ++ joinComma rest

/-- ToPropertyKey of a key spec used as `row[spec]`: a string is used as is, an
array is stringified by joining its elements with commas (so `row[["city"]]`
reads the column "city"). -/
def toPropertyKey : KeySpec → String
  | KeySpec.kStr s => s
  | KeySpec.kArr l => joinComma l

/-- Key extraction plus aggregation of `renderChart` in src/unnamed/part_000
(lines 211-259): `labelKey = config.data.labels[0]`,
`dataKey = config.data.datasets[0].data[0]`.  When the extracted data key is
`undefined`, `dataKey.toLowerCase()` throws and the catch branch shows the
failure placeholder (`none`).  An `undefined` label key used as a property key
reads the column named "undefined". -/
def renderChartResolve (labelSpec dataSpec : KeySpec) (data : List Row) : Option AggResult :=
  match specIndex0 dataSpec with
  | none => none
  | some dataKey =>
      let labelKey := (specIndex0 labelSpec).getD "undefined"
      some (aggregateDataForChart data labelKey dataKey)

/-- The raw (unaggregated) chart data produced by script.js: one point per row. -/
structure RawChartData where
  labels : List (Option Value)
  values : List (Option Value)
deriving DecidableEq

/-- `renderChart` of src/static/script.js (lines 86-122): the whole
`config.data.labels` / `datasets[0].data` field is the key
(`labelKey = config.data.labels`), a falsy key (the empty string; arrays are
always truthy) throws the missing-key error (`none`), and otherwise each row is
mapped to its raw cell value under the ToPropertyKey-converted key. -/
def scriptRenderResolve (labelSpec dataSpec : KeySpec) (data : List Row) : Option RawChartData :=
  if labelSpec = KeySpec.kStr "" ∨ dataSpec = KeySpec.kStr "" then none
  else
    some { labels := data.map (fun row => assocGet row (toPropertyKey labelSpec)),
           values := data.map (fun row => assocGet row (toPropertyKey dataSpec)) }

/-- Insert a label into the list of already-seen labels unless present:
how the key set of a JS object grows during the aggregation loops. -/
def seenInsert {α : Type} [DecidableEq α] (seen : List α) (l : α) : List α :=
  if l ∈ seen then seen else seen ++ [l]

/-- The spec notion the label order is compared against: the distinct
stringified label values of the rows, in first-encountered order. -/
def firstSeenLabels (data : List Row) (labelKey : String) : List String :=
  data.foldl (fun seen row => seenInsert seen (rowLabel labelKey row)) []

/-- Number of rows whose stringified label equals the given one. -/
def labelCount (labelKey : String) (data : List Row) (l : String) : Nat :=
  data.countP (fun row => rowLabel labelKey row == l)

/-!  Chart-instance lifecycle (src/unnamed/part_000 `updateResults` lines
127-161 and `renderChart` line 250, src/static/script.js lines 88-91).
Chart objects are identified by a fresh handle; `instances` is the
`chartInstances` map (canvas number to handle) and `liveCharts` tracks every
constructed and not yet destroyed Chart object with its canvas. -/

structure RenderSys where
  instances : List (Nat × Nat)
  liveCharts : List (Nat × Nat)
  nextId : Nat
deriving DecidableEq

/-- Page load: no chart instances. -/
def initSys : RenderSys := { instances := [], liveCharts := [], nextId := 0 }

/-- `chartInstances[chartNum] = new Chart(canvas, config)`: constructs a new
live chart on the canvas and stores its handle. -/
def sysRenderChart (s : RenderSys) (canvas : Nat) : RenderSys :=
  { instances := assocSet s.instances canvas s.nextId,
    liveCharts := s.liveCharts ++ [(canvas, s.nextId)],
    nextId := s.nextId + 1 }

/-- `updateResults`: destroy every chart in `chartInstances`, reset the map,
then render the (at most 4) requested charts on canvases 1, 2, ... -/
def sysUpdateResults (s : RenderSys) (numCharts : Nat) : RenderSys :=
  let destroyedIds := s.instances.map Prod.snd
  let s1 : RenderSys :=
    { instances := [],
      liveCharts := s.liveCharts.filter (fun c => decide (c.2 ∉ destroyedIds)),
      nextId := s.nextId }
  (List.range (min numCharts 4)).foldl (fun st i => sysRenderChart st (i + 1)) s1

/-- script.js state: the single `chartInstance` handle for the one canvas,
plus the set of constructed and not yet destroyed Chart objects. -/
structure ScriptSys where
  chartInstance : Option Nat
  live : List Nat
  nextId : Nat
deriving DecidableEq

/-- Page load: `chartInstance = null`. -/
def scriptInit : ScriptSys := { chartInstance := none, live := [], nextId := 0 }

/-- script.js `renderChart`: `if (chartInstance) chartInstance.destroy();`
then `chartInstance = new Chart(ctx, config)`. -/
def scriptRenderStep (s : ScriptSys) : ScriptSys :=
  let live1 :=
    match s.chartInstance with
    | some h => s.live.filter (fun x => decide (x ≠ h))
    | none => s.live
  { chartInstance := some s.nextId, live := live1 ++ [s.nextId], nextId := s.nextId + 1 }

/-- State after n successive script.js renders. -/
def scriptIter : Nat → ScriptSys
  | 0 => scriptInit
  | n + 1 => scriptRenderStep (scriptIter n)

/-- Lifecycle invariant of the part_000 state: the live Chart objects are
exactly the ones recorded in `chartInstances`, with pairwise-distinct canvases. -/
def SysInv (s : RenderSys) : Prop :=
  s.liveCharts = s.instances ∧ (s.instances.map Prod.fst).Nodup

/-! Concrete inputs used by the claims. -/

/-- The end-to-end scenario rows: NY 10, NY 5, LA 7. -/
def c1Rows : List Row :=
  [[("city", Value.vStr "NY"), ("sales", Value.vNum 10)],
   [("city", Value.vStr "NY"), ("sales", Value.vNum 5)],
   [("city", Value.vStr "LA"), ("sales", Value.vNum 7)]]

/-- One row carrying the column "city": enough to separate the two key shapes. -/
def c2Rows : List Row :=
  [[("city", Value.vStr "NY"), ("sales", Value.vNum 10)]]

/-- A malformed cell next to a well-formed one under the same label. -/
def c5Rows : List Row :=
  [[("cat", Value.vStr "a"), ("v", Value.vStr "x")],
   [("cat", Value.vStr "a"), ("v", Value.vNum 5)]]

/-- A non-empty row set in which no row carries the label column "city". -/
def c6Rows : List Row := [[("v", Value.vNum 5)]]

/-- Label "10" is seen before label "2"; both are canonical array indices. -/
def c7Rows : List Row :=
  [[("cat", Value.vStr "10"), ("v", Value.vNum 1)],
   [("cat", Value.vStr "2"), ("v", Value.vNum 1)]]

/-- Two rows with distinct label values. -/
def c8Rows : List Row :=
  [[("city", Value.vStr "NY"), ("sales", Value.vNum 10)],
   [("city", Value.vStr "LA"), ("sales", Value.vNum 7)]]

/-! ### Association-list lemmas -/

theorem assocGet_assocSet_self {α β : Type} [DecidableEq α] (o : List (α × β)) (k : α) (v : β) :
    assocGet (assocSet o k v) k = some v := by
  induction o with
  | nil => simp [assocSet, assocGet]
  | cons p rest ih =>
      obtain ⟨k', v'⟩ := p
      by_cases h : k' = k
      · simp [assocSet, assocGet, h]
      · simp [assocSet, assocGet, h, ih]

theorem assocGet_assocSet_ne {α β : Type} [DecidableEq α] (o : List (α × β)) (k k' : α) (v : β)
    (h : k ≠ k') : assocGet (assocSet o k v) k' = assocGet o k' := by
  induction o with
  | nil => simp [assocSet, assocGet, h]
  | cons p rest ih =>
      obtain ⟨k'', v''⟩ := p
      by_cases h2 : k'' = k
      · subst h2
        simp [assocSet, assocGet, h]
      · by_cases h3 : k'' = k'
        · subst h3
          simp [assocSet, assocGet, h2, Ne.symm h]
        · simp [assocSet, assocGet, h2, h3, ih]

theorem assocGet_eq_none_iff {α β : Type} [DecidableEq α] (o : List (α × β)) (k : α) :
    assocGet o k = none ↔ k ∉ o.map Prod.fst := by
  induction o with
  | nil => simp [assocGet]
  | cons p rest ih =>
      obtain ⟨k', v'⟩ := p
      by_cases h : k' = k
      · simp [assocGet, h]
      · simp [assocGet, h, ih, Ne.symm h]

theorem assocSet_of_notMem {α β : Type} [DecidableEq α] (o : List (α × β)) (k : α) (v : β)
    (h : k ∉ o.map Prod.fst) : assocSet o k v = o ++ [(k, v)] := by
  induction o with
  | nil => simp [assocSet]
  | cons p rest ih =>
      obtain ⟨k', v'⟩ := p
      simp only [List.map_cons, List.mem_cons] at h
      push_neg at h
      simp [assocSet, Ne.symm h.1, ih h.2]

theorem assocSet_keys {α β : Type} [DecidableEq α] (o : List (α × β)) (k : α) (v : β) :
    (assocSet o k v).map Prod.fst = seenInsert (o.map Prod.fst) k := by
  induction o with
  | nil => simp [assocSet, seenInsert]
  | cons p rest ih =>
      obtain ⟨k', v'⟩ := p
      by_cases h : k' = k
      · simp [assocSet, seenInsert, h]
      · simp only [assocSet, if_neg h, List.map_cons, ih, seenInsert]
        by_cases hm : k ∈ rest.map Prod.fst
        · simp [hm, Ne.symm h]
        · simp [hm, Ne.symm h]

theorem assocSet_assocSet {α β : Type} [DecidableEq α] (o : List (α × β)) (k : α) (a b : β) :
    assocSet (assocSet o k a) k b = assocSet o k b := by
  induction o with
  | nil => simp [assocSet]
  | cons p rest ih =>
      obtain ⟨k', v'⟩ := p
      by_cases h : k' = k
      · simp [assocSet, h]
      · simp [assocSet, h, ih]

theorem assocGet_of_mem_of_nodup {α β : Type} [DecidableEq α] (o : List (α × β)) (k : α) (v : β)
    (hnd : (o.map Prod.fst).Nodup) (hm : (k, v) ∈ o) : assocGet o k = some v := by
  induction o with
  | nil => simp at hm
  | cons p rest ih =>
      obtain ⟨k', v'⟩ := p
      rcases List.mem_cons.1 hm with h | h
      · injection h with h1 h2
        subst h1
        subst h2
        simp [assocGet]
      · simp only [List.map_cons, List.nodup_cons] at hnd
        have hk : k' ≠ k := by
          intro he
          subst he
          exact hnd.1 (List.mem_map_of_mem Prod.fst h)
        simp [assocGet, hk, ih hnd.2 h]

theorem assocSet_addValue_snd_sum {α : Type} [DecidableEq α] (o : List (α × Rat)) (k : α) (d : Rat) :
    ((assocSet o k ((assocGet o k).getD 0 + d)).map Prod.snd).sum = (o.map Prod.snd).sum + d := by
  induction o with
  | nil => simp [assocSet, assocGet]
  | cons p rest ih =>
      obtain ⟨k', v'⟩ := p
      by_cases h : k' = k
      · simp [assocSet, assocGet, h]
        ring_nf
      · simp only [assocGet, if_neg h, assocSet, List.map_cons, List.sum_cons, ih]
        ring_nf

/-! ### seenInsert lemmas -/

theorem seenInsert_nodup {α : Type} [DecidableEq α] (seen : List α) (l : α) (h : seen.Nodup) :
    (seenInsert seen l).Nodup := by
  by_cases hm : l ∈ seen
  · simpa [seenInsert, hm] using h
  · simp [seenInsert, hm, List.nodup_append, h]

theorem mem_seenInsert {α : Type} [DecidableEq α] (seen : List α) (l x : α) :
    x ∈ seenInsert seen l ↔ x ∈ seen ∨ x = l := by
  unfold seenInsert
  by_cases hm : l ∈ seen
  · rw [if_pos hm]
    constructor
    · exact Or.inl
    · rintro (hx | rfl)
      · exact hx
      · exact hm
  · rw [if_neg hm]
    simp

theorem seenInsert_of_mem {α : Type} [DecidableEq α] (seen : List α) (l : α) (h : l ∈ seen) :
    seenInsert seen l = seen := by
  simp [seenInsert, h]

/-! ### Enumeration-order lemmas -/

theorem filter_not_filter_perm {α : Type} (p : α → Bool) (l : List α) :
    List.Perm (l.filter p ++ l.filter (fun a => !p a)) l := by
  induction l with
  | nil => simp
  | cons a l ih =>
      by_cases h : p a
      · simpa [List.filter_cons, h] using ih.cons a
      · simp only [List.filter_cons, h, Bool.false_eq_true, if_false, Bool.not_false, if_true,
          Bool.not_eq_true']
        exact List.perm_middle.trans (ih.cons a)

theorem orderObj_perm (o : JsObj) : List.Perm (orderObj o) o := by
  unfold orderObj
  exact ((List.perm_insertionSort _ _).append_right _).trans
    (filter_not_filter_perm (fun p => isArrayIndex p.1) o)

theorem orderObj_eq_self (o : JsObj) (h : ∀ pr ∈ o, isArrayIndex pr.1 = false) :
    orderObj o = o := by
  unfold orderObj
  have h1 : o.filter (fun p => isArrayIndex p.1) = [] :=
    List.filter_eq_nil_iff.2 (by simpa using h)
  have h2 : o.filter (fun p => !isArrayIndex p.1) = o :=
    List.filter_eq_self.2 (by simpa using h)
  simp [h1, h2]

/-! ### Aggregation-loop lemmas -/

theorem countStep_keys (lk : String) (o : JsObj) (r : Row) :
    (countStep lk o r).map Prod.fst = seenInsert (o.map Prod.fst) (rowLabel lk r) :=
  assocSet_keys ..

theorem sumStep_keys (lk dk : String) (o : JsObj) (r : Row) :
    (sumStep lk dk o r).map Prod.fst = seenInsert (o.map Prod.fst) (rowLabel lk r) :=
  assocSet_keys ..

theorem groupStep_keys (lk dk : String) (o : JsObj) (r : Row) :
    (groupStep lk dk o r).map Prod.fst = seenInsert (o.map Prod.fst) (rowLabel lk r) := by
  simp only [groupStep]
  by_cases h : (assocGet o (rowLabel lk r)).getD 0 = 0
  · rw [if_pos h, assocSet_keys, assocSet_keys]
    by_cases hm : rowLabel lk r ∈ o.map Prod.fst
    · rw [seenInsert_of_mem _ _ hm]
      exact seenInsert_of_mem _ _ hm
    · rw [seenInsert_of_mem]
      simp [mem_seenInsert]
  · rw [if_neg h, assocSet_keys]

theorem foldl_keys_of_step (f : JsObj → Row → JsObj) (lf : Row → String)
    (hf : ∀ o r, (f o r).map Prod.fst = seenInsert (o.map Prod.fst) (lf r)) (data : List Row) :
    ∀ acc : JsObj, (data.foldl f acc).map Prod.fst =
      data.foldl (fun s r => seenInsert s (lf r)) (acc.map Prod.fst) := by
  induction data with
  | nil => intro acc; rfl
  | cons r data ih =>
      intro acc
      simp only [List.foldl_cons, ih (f acc r), hf]

theorem seenFold_nodup (lf : Row → String) (data : List Row) :
    ∀ seen : List String, seen.Nodup →
      (data.foldl (fun s r => seenInsert s (lf r)) seen).Nodup := by
  induction data with
  | nil => intro seen h; exact h
  | cons r data ih =>
      intro seen h
      exact ih _ (seenInsert_nodup _ _ h)

theorem mem_seenFold (lf : Row → String) (data : List Row) :
    ∀ (seen : List String) (k : String),
      k ∈ data.foldl (fun s r => seenInsert s (lf r)) seen →
      k ∈ seen ∨ ∃ r ∈ data, lf r = k := by
  induction data with
  | nil => intro seen k h; exact Or.inl h
  | cons r data ih =>
      intro seen k h
      rcases ih _ k h with h1 | h1
      · rcases (mem_seenInsert seen (lf r) k).1 h1 with h2 | h2
        · exact Or.inl h2
        · exact Or.inr ⟨r, List.mem_cons_self r data, h2.symm⟩
      · obtain ⟨r', hr', he⟩ := h1
        exact Or.inr ⟨r', List.mem_cons_of_mem r hr', he⟩

theorem seenFold_const (lf : Row → String) (c : String) (data : List Row)
    (h : ∀ r ∈ data, lf r = c) :
    ∀ seen : List String, c ∈ seen →
      data.foldl (fun s r => seenInsert s (lf r)) seen = seen := by
  induction data with
  | nil => intro seen _; rfl
  | cons r data ih =>
      intro seen hc
      have hr : lf r = c := h r (List.mem_cons_self r data)
      simp only [List.foldl_cons, hr, seenInsert_of_mem _ _ hc]
      exact ih (fun r' hr' => h r' (List.mem_cons_of_mem r hr')) seen hc

theorem foldl_countStep_get (lk : String) (data : List Row) :
    ∀ (acc : JsObj) (k : String),
      assocGet (data.foldl (countStep lk) acc) k =
        if labelCount lk data k = 0 then assocGet acc k
        else some ((assocGet acc k).getD 0 + (labelCount lk data k : Rat)) := by
  induction data with
  | nil => intro acc k; simp [labelCount]
  | cons r data ih =>
      intro acc k
      by_cases hr : rowLabel lk r = k
      · have hc : labelCount lk (r :: data) k = labelCount lk data k + 1 := by
          simp [labelCount, List.countP_cons, hr]
        have hacc : assocGet (countStep lk acc r) k = some ((assocGet acc k).getD 0 + 1) := by
          rw [show countStep lk acc r =
              assocSet acc (rowLabel lk r) ((assocGet acc (rowLabel lk r)).getD 0 + 1) from rfl,
            hr, assocGet_assocSet_self]
        rw [List.foldl_cons, ih (countStep lk acc r) k, hc]
        by_cases h0 : labelCount lk data k = 0
        · rw [if_pos h0, hacc, if_neg (by omega)]
          rw [h0]
          norm_num
        · rw [if_neg h0, if_neg (by omega), hacc]
          simp only [Option.getD_some]
          push_cast
          ring_nf
      · have hc : labelCount lk (r :: data) k = labelCount lk data k := by
          simp [labelCount, List.countP_cons, hr]
        have hacc : assocGet (countStep lk acc r) k = assocGet acc k := by
          rw [show countStep lk acc r =
              assocSet acc (rowLabel lk r) ((assocGet acc (rowLabel lk r)).getD 0 + 1) from rfl]
          exact assocGet_assocSet_ne _ _ _ _ hr
        rw [List.foldl_cons, ih (countStep lk acc r) k, hc, hacc]

theorem foldl_countStep_sum (lk : String) (data : List Row) :
    ∀ acc : JsObj,
      ((data.foldl (countStep lk) acc).map Prod.snd).sum =
        (acc.map Prod.snd).sum + (data.length : Rat) := by
  induction data with
  | nil => intro acc; simp
  | cons r data ih =>
      intro acc
      rw [List.foldl_cons, ih (countStep lk acc r)]
      rw [show countStep lk acc r =
          assocSet acc (rowLabel lk r) ((assocGet acc (rowLabel lk r)).getD 0 + 1) from rfl]
      rw [assocSet_addValue_snd_sum]
      simp only [List.length_cons]
      push_cast
      ring_nf

/-- Each branch of `aggregateDataForChart` folds a step whose key set grows by
first-seen insertion of the stringified label, and returns the
`Object.keys`/`Object.values` views of the folded object. -/
theorem aggregateDataForChart_shape (data : List Row) (lk dk : String) :
    ∃ f : JsObj → Row → JsObj,
      (∀ o r, (f o r).map Prod.fst = seenInsert (o.map Prod.fst) (rowLabel lk r)) ∧
      aggregateDataForChart data lk dk =
        { labels := (orderObj (data.foldl f [])).map Prod.fst,
          values := (orderObj (data.foldl f [])).map Prod.snd } := by
  unfold aggregateDataForChart
  by_cases h1 : jsToLowerCase dk = "count"
  · rw [if_pos h1]
    exact ⟨countStep lk, countStep_keys lk, rfl⟩
  · rw [if_neg h1]
    by_cases h2 : data.length < 50 ∧ ∀ row ∈ data, (assocGet row dk).isSome
    · rw [if_pos h2]
      exact ⟨sumStep lk dk, sumStep_keys lk dk, rfl⟩
    · rw [if_neg h2]
      exact ⟨groupStep lk dk, groupStep_keys lk dk, rfl⟩

/-- The two summing branches are the same function: the truthiness guard of
the large-dataset loop only ever initializes the slot that the following
`+=` overwrites. -/
theorem sumStep_eq_groupStep (lk dk : String) : sumStep lk dk = groupStep lk dk := by
  funext o r
  simp only [sumStep, groupStep]
  by_cases h : (assocGet o (rowLabel lk r)).getD 0 = 0
  · rw [if_pos h]
    rcases ho : assocGet o (rowLabel lk r) with _ | w
    · rw [assocGet_assocSet_self, assocSet_assocSet]
      simp [ho]
    · have hw : w = 0 := by simpa [ho] using h
      rw [assocGet_assocSet_self, assocSet_assocSet]
      simp [ho, hw]
  · rw [if_neg h]

/-- Label list of the aggregation, when no stringified label is an ECMAScript
array index: `Object.keys` preserves insertion order, which is first-seen
order of the labels. -/
theorem agg_labels_firstSeen_aux (data : List Row) (lk dk : String)
    (h : ∀ r ∈ data, isArrayIndex (rowLabel lk r) = false) :
    (aggregateDataForChart data lk dk).labels = firstSeenLabels data lk := by
  obtain ⟨f, hf, heq⟩ := aggregateDataForChart_shape data lk dk
  rw [heq]
  have hkeys : (data.foldl f []).map Prod.fst = firstSeenLabels data lk := by
    rw [foldl_keys_of_step f (rowLabel lk) hf data []]
    rfl
  have hidx : ∀ pr ∈ data.foldl f [], isArrayIndex pr.1 = false := by
    intro pr hpr
    have hmem : pr.1 ∈ (data.foldl f []).map Prod.fst := List.mem_map_of_mem Prod.fst hpr
    rw [hkeys] at hmem
    rcases mem_seenFold (rowLabel lk) data [] pr.1 hmem with h1 | h1
    · simp at h1
    · obtain ⟨r, hr, he⟩ := h1
      rw [← he]
      exact h r hr
  rw [orderObj_eq_self _ hidx]
  exact hkeys

/-- The labels returned by any branch of the aggregation are pairwise
distinct: they are the keys of a JS object. -/
theorem agg_labels_nodup_aux (data : List Row) (lk dk : String) :
    (aggregateDataForChart data lk dk).labels.Nodup := by
  obtain ⟨f, hf, heq⟩ := aggregateDataForChart_shape data lk dk
  rw [heq]
  have hperm : List.Perm ((orderObj (data.foldl f [])).map Prod.fst)
      ((data.foldl f []).map Prod.fst) := (orderObj_perm _).map Prod.fst
  rw [hperm.nodup_iff]
  rw [foldl_keys_of_step f (rowLabel lk) hf data []]
  exact seenFold_nodup (rowLabel lk) data [] List.nodup_nil

/-! ### Chart-instance lifecycle lemmas -/

theorem sysRenderChart_inv (s : RenderSys) (c : Nat) (hInv : SysInv s)
    (hc : c ∉ s.instances.map Prod.fst) :
    SysInv (sysRenderChart s c) ∧
      (sysRenderChart s c).instances.map Prod.fst = s.instances.map Prod.fst ++ [c] := by
  obtain ⟨h1, h2⟩ := hInv
  have hset : assocSet s.instances c s.nextId = s.instances ++ [(c, s.nextId)] :=
    assocSet_of_notMem _ _ _ hc
  refine ⟨⟨?_, ?_⟩, ?_⟩
  · simp [sysRenderChart, hset, h1]
  · simp [sysRenderChart, hset, List.nodup_append, h2, hc]
  · simp [sysRenderChart, hset]

theorem foldl_sysRenderChart_inv (l : List Nat) :
    ∀ s : RenderSys, l.Nodup → SysInv s → (∀ c ∈ l, c ∉ s.instances.map Prod.fst) →
      SysInv (l.foldl sysRenderChart s) := by
  induction l with
  | nil => intro s _ h _; exact h
  | cons c l ih =>
      intro s hnd hInv hfresh
      obtain ⟨hInv2, hkeys⟩ := sysRenderChart_inv s c hInv (hfresh c (List.mem_cons_self c l))
      simp only [List.foldl_cons]
      apply ih _ (List.Nodup.of_cons hnd) hInv2
      intro c' hc'
      rw [hkeys]
      simp only [List.mem_append, List.mem_singleton]
      push_neg
      refine ⟨hfresh c' (List.mem_cons_of_mem c hc'), ?_⟩
      intro he
      subst he
      exact (List.nodup_cons.1 hnd).1 hc'

theorem sysUpdateResults_inv (s : RenderSys) (n : Nat) (h : SysInv s) :
    SysInv (sysUpdateResults s n) := by
  obtain ⟨h1, h2⟩ := h
  have hfilter : s.liveCharts.filter (fun c => decide (c.2 ∉ s.instances.map Prod.snd)) = [] :=
    List.filter_eq_nil_iff.2 (by
      intro c hc
      rw [h1] at hc
      have hm : c.2 ∈ s.instances.map Prod.snd := List.mem_map_of_mem Prod.snd hc
      simp [hm])
  simp only [sysUpdateResults]
  rw [← List.foldl_map (fun i : Nat => i + 1) sysRenderChart]
  apply foldl_sysRenderChart_inv
  · exact (List.nodup_range _).map (fun a b hab => by omega)
  · exact ⟨hfilter, by simp⟩
  · intro c hc
    simp

theorem foldl_sysUpdateResults_inv (reqs : List Nat) :
    ∀ s : RenderSys, SysInv s → SysInv (reqs.foldl sysUpdateResults s) := by
  induction reqs with
  | nil => intro s h; exact h
  | cons r reqs ih =>
      intro s h
      exact ih _ (sysUpdateResults_inv s r h)

theorem scriptIter_live (n : Nat) :
    (scriptIter n).live =
      match (scriptIter n).chartInstance with
      | none => []
      | some h => [h] := by
  induction n with
  | zero => rfl
  | succ n ih =>
      simp only [scriptIter, scriptRenderStep]
      rcases hc : (scriptIter n).chartInstance with _ | h
      · rw [hc] at ih
        simp [ih]
      · rw [hc] at ih
        simp [ih]

/-! ### Claims -/

/-- C1: for the rows NY 10, NY 5, LA 7 and a bar blueprint whose label key is
"city" and whose value key is "sales", chart resolution returns labels
["NY", "LA"] and values [15, 7]: duplicate labels are summed and labels keep
first-seen order. -/
theorem c1_bar_city_sales_resolution :
    aggregateDataForChart c1Rows "city" "sales" =
      { labels := ["NY", "LA"], values := [15, 7] } := by
  norm_num +decide [aggregateDataForChart, aggregateSmall, sumStep, rowLabel, rowValue, jsStr,
    jsParseFloatOr0, jsToLowerCase, assocGet, assocSet, orderObj, isArrayIndex,
    isCanonicalNumericString, c1Rows, List.insertionSort, List.orderedInsert]

/-- C2 counterexample: part_000's renderChart reads element 0 of the key spec,
so the bare string "city" is read as its first character "c" and resolution
differs between the bare-string shape and the one-element-sequence shape on
the same rows. -/
theorem c2_bare_string_key_differs :
    renderChartResolve (KeySpec.kStr "city") (KeySpec.kStr "sales") c2Rows =
      some { labels := ["undefined"], values := [0] } ∧
    renderChartResolve (KeySpec.kArr ["city"]) (KeySpec.kArr ["sales"]) c2Rows =
      some { labels := ["NY"], values := [10] } ∧
    renderChartResolve (KeySpec.kStr "city") (KeySpec.kStr "sales") c2Rows ≠
      renderChartResolve (KeySpec.kArr ["city"]) (KeySpec.kArr ["sales"]) c2Rows := by
  refine ⟨?_, ?_, ?_⟩ <;>
    norm_num +decide [renderChartResolve, specIndex0, aggregateDataForChart, aggregateSmall,
      aggregateGrouped, sumStep, groupStep, rowLabel, rowValue, jsStr, jsParseFloatOr0,
      jsToLowerCase, assocGet, assocSet, orderObj, isArrayIndex, isCanonicalNumericString,
      c2Rows, List.insertionSort, List.orderedInsert, parseFloatQ, takeDigits]

/-- C2 (amended): script.js's renderChart resolves a bare-string key and its
one-element-sequence wrapping identically for every row set and every nonempty
column name (an array used as a property key stringifies to the bare column
name); in part_000's renderChart the one-element sequence yields the column
name, but a bare string is read as its first character, so the two shapes
need not resolve identically there. -/
theorem c2_dual_shape_script_identical (s t : String) (data : List Row)
    (hs : s ≠ "") (ht : t ≠ "") :
    scriptRenderResolve (KeySpec.kStr s) (KeySpec.kStr t) data =
      scriptRenderResolve (KeySpec.kArr [s]) (KeySpec.kArr [t]) data ∧
    specIndex0 (KeySpec.kArr [s]) = some s := by
  constructor
  · simp [scriptRenderResolve, toPropertyKey, joinComma, hs, ht]
  · rfl

/-- C2 witness: both shapes of the "city"/"sales" blueprint resolve
identically in script.js on the concrete row set. -/
theorem c2_dual_shape_script_identical_witness :
    scriptRenderResolve (KeySpec.kStr "city") (KeySpec.kStr "sales") c2Rows =
      scriptRenderResolve (KeySpec.kArr ["city"]) (KeySpec.kArr ["sales"]) c2Rows ∧
    specIndex0 (KeySpec.kArr ["city"]) = some "city" :=
  c2_dual_shape_script_identical "city" "sales" c2Rows (by decide) (by decide)

/-- C3: when the value-column key case-insensitively equals "count",
aggregation counts the rows sharing each label (each value is the number of
rows whose stringified label equals the paired label) and the values sum to
the total number of rows. -/
theorem c3_count_mode_partitions_rows (data : List Row) (lk dk : String)
    (h : jsToLowerCase dk = "count") :
    ((aggregateDataForChart data lk dk).values).sum = (data.length : Rat) ∧
    ∀ p ∈ (aggregateDataForChart data lk dk).labels.zip
        (aggregateDataForChart data lk dk).values,
      p.2 = (labelCount lk data p.1 : Rat) := by
  have hagg : aggregateDataForChart data lk dk = aggregateCount data lk := by
    unfold aggregateDataForChart
    rw [if_pos h]
  rw [hagg]
  constructor
  · simp only [aggregateCount]
    rw [((orderObj_perm (data.foldl (countStep lk) [])).map Prod.snd).sum_eq,
      foldl_countStep_sum lk data []]
    simp
  · simp only [aggregateCount]
    intro p hp
    rw [List.zip_map' Prod.fst Prod.snd] at hp
    obtain ⟨pr, hpr, hpe⟩ := List.mem_map.1 hp
    have hpp : pr = p := by
      rw [← hpe]
    have hmem : p ∈ data.foldl (countStep lk) [] := by
      rw [← hpp]
      exact ((orderObj_perm _).mem_iff).1 hpr
    have hnd : ((data.foldl (countStep lk) []).map Prod.fst).Nodup := by
      rw [foldl_keys_of_step (countStep lk) (rowLabel lk) (countStep_keys lk) data []]
      exact seenFold_nodup (rowLabel lk) data [] List.nodup_nil
    have hget : assocGet (data.foldl (countStep lk) []) p.1 = some p.2 :=
      assocGet_of_mem_of_nodup _ _ _ hnd (by rw [Prod.mk.eta]; exact hmem)
    rw [foldl_countStep_get lk data [] p.1] at hget
    by_cases h0 : labelCount lk data p.1 = 0
    · rw [if_pos h0] at hget
      simp [assocGet] at hget
    · rw [if_neg h0] at hget
      simp only [assocGet, Option.getD_none, zero_add, Option.some.injEq] at hget
      exact hget.symm

/-- C3 witness: the capitalized sentinel "Count" on the NY/NY/LA rows. -/
theorem c3_count_mode_partitions_rows_witness :
    ((aggregateDataForChart c1Rows "city" "Count").values).sum = ((c1Rows.length : Nat) : Rat) :=
  (c3_count_mode_partitions_rows c1Rows "city" "Count" (by decide)).1

/-- C4: the labels array and the values array returned by aggregation have
equal length, for every row set and every pair of keys. -/
theorem c4_labels_values_length_eq (data : List Row) (lk dk : String) :
    (aggregateDataForChart data lk dk).labels.length =
      (aggregateDataForChart data lk dk).values.length := by
  obtain ⟨f, hf, heq⟩ := aggregateDataForChart_shape data lk dk
  rw [heq]
  simp

/-- C5: each raw cell of the value column is parsed as a float, and an
unparseable or missing cell coerces to zero rather than failing resolution;
in particular the rows cat a / v "x" and cat a / v 5 summed on v give 5 for
label "a". -/
theorem c5_malformed_cells_coerce_to_zero (s : String) (h : parseFloatQ s = none) :
    jsParseFloatOr0 (some (Value.vStr s)) = 0 ∧
    jsParseFloatOr0 none = 0 ∧
    jsParseFloatOr0 (some Value.vNull) = 0 ∧
    aggregateDataForChart c5Rows "cat" "v" = { labels := ["a"], values := [5] } := by
  refine ⟨by simp [jsParseFloatOr0, h], rfl, rfl, ?_⟩
  norm_num +decide [aggregateDataForChart, aggregateSmall, sumStep, rowLabel, rowValue, jsStr,
    jsParseFloatOr0, jsToLowerCase, assocGet, assocSet, orderObj, isArrayIndex,
    isCanonicalNumericString, c5Rows, List.insertionSort, List.orderedInsert,
    parseFloatQ, takeDigits]

/-- C5 witness: instantiated at the unparseable cell "x". -/
theorem c5_malformed_cells_coerce_to_zero_witness :
    jsParseFloatOr0 (some (Value.vStr "x")) = 0 ∧
    jsParseFloatOr0 none = 0 ∧
    jsParseFloatOr0 (some Value.vNull) = 0 ∧
    aggregateDataForChart c5Rows "cat" "v" = { labels := ["a"], values := [5] } :=
  c5_malformed_cells_coerce_to_zero "x" (by decide)

/-- C6 counterexample: on a non-empty row set in which no row carries the
referenced label column "city", resolution does not return a missing-column
error: it returns a chart grouping every row under the label "undefined". -/
theorem c6_missing_column_returns_chart :
    assocGet ([("v", Value.vNum 5)] : Row) "city" = none ∧
    renderChartResolve (KeySpec.kArr ["city"]) (KeySpec.kArr ["v"]) c6Rows =
      some { labels := ["undefined"], values := [5] } := by
  refine ⟨rfl, ?_⟩
  norm_num +decide [renderChartResolve, specIndex0, aggregateDataForChart, aggregateSmall,
    sumStep, rowLabel, rowValue, jsStr, jsParseFloatOr0, jsToLowerCase, assocGet, assocSet,
    orderObj, isArrayIndex, isCanonicalNumericString, c6Rows,
    List.insertionSort, List.orderedInsert]

/-- C6 (amended): when no row of a non-empty row set carries the referenced
label column, resolution neither crashes nor reports a missing column: every
row is grouped under the single label "undefined", the stringification of the
undefined lookup, and a chart is produced. -/
theorem c6_missing_column_groups_under_undefined (data : List Row) (lk dk : String)
    (hne : data ≠ []) (h : ∀ r ∈ data, assocGet r lk = none) :
    (aggregateDataForChart data lk dk).labels = ["undefined"] := by
  have hl : ∀ r ∈ data, rowLabel lk r = "undefined" := by
    intro r hr
    simp [rowLabel, h r hr, jsStr]
  have hidx : ∀ r ∈ data, isArrayIndex (rowLabel lk r) = false := by
    intro r hr
    rw [hl r hr]
    decide
  rw [agg_labels_firstSeen_aux data lk dk hidx]
  cases data with
  | nil => exact absurd rfl hne
  | cons r rest =>
      unfold firstSeenLabels
      rw [List.foldl_cons, hl r (List.mem_cons_self r rest)]
      rw [show seenInsert ([] : List String) "undefined" = ["undefined"] from rfl]
      exact seenFold_const (rowLabel lk) "undefined" rest
        (fun r' hr' => hl r' (List.mem_cons_of_mem r hr')) ["undefined"] (by simp)

/-- C6 witness: the single-row set lacking the "city" column. -/
theorem c6_missing_column_groups_under_undefined_witness :
    (aggregateDataForChart c6Rows "city" "v").labels = ["undefined"] :=
  c6_missing_column_groups_under_undefined c6Rows "city" "v" (by decide) (by decide)

/-- C7 counterexample: labels "10" and "2" are both canonical array-index
strings, so Object.keys enumerates them in ascending numeric order
["2", "10"] even though "10" occurs in an earlier row: the output is not in
first-encountered order. -/
theorem c7_numeric_labels_reordered :
    (aggregateDataForChart c7Rows "cat" "v").labels = ["2", "10"] ∧
    firstSeenLabels c7Rows "cat" = ["10", "2"] ∧
    (aggregateDataForChart c7Rows "cat" "v").labels ≠ firstSeenLabels c7Rows "cat" := by
  have h1 : (aggregateDataForChart c7Rows "cat" "v").labels = ["2", "10"] := by
    norm_num +decide [aggregateDataForChart, aggregateSmall, sumStep, rowLabel, rowValue, jsStr,
      jsParseFloatOr0, jsToLowerCase, assocGet, assocSet, orderObj, isArrayIndex,
      isCanonicalNumericString, numericValue, digitsToNat, c7Rows,
      List.insertionSort, List.orderedInsert]
  have h2 : firstSeenLabels c7Rows "cat" = ["10", "2"] := by decide
  refine ⟨h1, h2, ?_⟩
  rw [h1, h2]
  decide

/-- C7 (amended): the resolved labels appear in first-encountered order of
their stringified label values whenever no such label is a canonical
array-index string; array-index labels are instead enumerated before all
others, in ascending numeric order. -/
theorem c7_first_seen_order_of_nonnumeric_labels (data : List Row) (lk dk : String)
    (h : ∀ r ∈ data, isArrayIndex (rowLabel lk r) = false) :
    (aggregateDataForChart data lk dk).labels = firstSeenLabels data lk :=
  agg_labels_firstSeen_aux data lk dk h

/-- C7 witness: the NY/NY/LA rows carry no numeric labels. -/
theorem c7_first_seen_order_of_nonnumeric_labels_witness :
    (aggregateDataForChart c1Rows "city" "sales").labels = firstSeenLabels c1Rows "city" :=
  c7_first_seen_order_of_nonnumeric_labels c1Rows "city" "sales" (by decide)

/-- C8: on row sets whose stringified label values are pairwise distinct, the
"already aggregated" branch and the group-and-sum branch produce identical
labels and values arrays (the two loops compute the same function, so
summation is idempotent on unique keys). -/
theorem c8_unique_labels_small_eq_grouped (data : List Row) (lk dk : String)
    (_h : (data.map (rowLabel lk)).Nodup) :
    aggregateSmall data lk dk = aggregateGrouped data lk dk := by
  unfold aggregateSmall aggregateGrouped
  rw [sumStep_eq_groupStep]

/-- C8 witness: the two-row distinct-label set. -/
theorem c8_unique_labels_small_eq_grouped_witness :
    aggregateSmall c8Rows "city" "sales" = aggregateGrouped c8Rows "city" "sales" :=
  c8_unique_labels_small_eq_grouped c8Rows "city" "sales" (by decide)

/-- C9: in every reachable state of the render loop, at most one live chart
instance exists per canvas identity: each updateResults cycle destroys all
recorded charts before rendering at most four fresh ones on distinct
canvases, and script.js destroys the previous instance of its single canvas
before creating a new one. -/
theorem c9_at_most_one_live_chart_per_canvas (reqs : List Nat) (n : Nat) :
    (((reqs.foldl sysUpdateResults initSys).liveCharts.map Prod.fst).Nodup) ∧
    (scriptIter n).live.length ≤ 1 := by
  constructor
  · have h := foldl_sysUpdateResults_inv reqs initSys ⟨rfl, List.nodup_nil⟩
    rw [h.1]
    exact h.2
  · rw [scriptIter_live n]
    cases (scriptIter n).chartInstance with
    | none => simp
    | some h => simp

/-- C10: the labels array contains pairwise-distinct entries: each
stringified label value occurs exactly once, regardless of how many rows
share it. -/
theorem c10_labels_pairwise_distinct (data : List Row) (lk dk : String) :
    (aggregateDataForChart data lk dk).labels.Nodup :=
  agg_labels_nodup_aux data lk dk

end ChartEngine
